import Mathlib

/-!
Verification of the distributed training/evaluation loop in
`remote-sensing/supervised.py` (UniMatchv2_Dutos), shallowly embedded in Lean.

Floating-point quantities are modelled over `ℚ` (exact count arithmetic and
ratios) except the learning-rate schedule, whose fractional power requires `ℝ`.
-/

namespace Supervised

/-! ## Metric aggregation model (`evaluate`)

`evaluate` iterates the validation loader.  For every batch it computes, from
the prediction and the mask, per-class `intersection`, `union`, `target`
arrays together with `correct = (pred == mask).sum()` and
`total = pred.numel()`.  The per-class arrays are all-reduced (summed over all
workers) before being added to the worker-local running meters; the pixel
counts `correct`/`total` are added to their meters WITHOUT any all-reduce.
We abstract the (opaque) model forward pass by taking the per-batch counts of
every worker as input: `data w b` is the counts worker `w` computes on its
`b`-th validation batch.  `DistributedSampler` with `drop_last=False` pads all
shards to the same length, so every worker sees the same number `B` of
batches, which is what makes the per-batch all-reduce well defined. -/

/-- Per-batch counts produced by `intersectionAndUnion` plus the two pixel
counters, for `C` classes. -/
structure BatchCounts (C : ℕ) where
  inter : Fin C → ℕ
  union : Fin C → ℕ
  tgt : Fin C → ℕ
  correct : ℕ
  total : ℕ

/-- `dist.all_reduce` with the default sum op: element-wise sum of one
per-class array across all `W` workers. -/
def allReduceSum {W C : ℕ} (f : Fin W → Fin C → ℕ) : Fin C → ℕ :=
  fun c => ∑ w, f w c

/-- `intersection_meter.sum` at the end of the pass: the all-reduced
intersection of each batch, accumulated over the batches. -/
def interMeterSum {W B C : ℕ} (data : Fin W → Fin B → BatchCounts C) (c : Fin C) : ℕ :=
  ∑ b, allReduceSum (fun w => (data w b).inter) c

/-- `union_meter.sum` at the end of the pass. -/
def unionMeterSum {W B C : ℕ} (data : Fin W → Fin B → BatchCounts C) (c : Fin C) : ℕ :=
  ∑ b, allReduceSum (fun w => (data w b).union) c

/-- `correct_pixel.sum` at the end of the pass: NOT all-reduced, only the
calling worker's own batches contribute. -/
def correctMeterSum {W B C : ℕ} (data : Fin W → Fin B → BatchCounts C) (me : Fin W) : ℕ :=
  ∑ b, (data me b).correct

/-- `total_pixel.sum` at the end of the pass: NOT all-reduced. -/
def totalMeterSum {W B C : ℕ} (data : Fin W → Fin B → BatchCounts C) (me : Fin W) : ℕ :=
  ∑ b, (data me b).total

/-- `iou_class = intersection_meter.sum / (union_meter.sum + 1e-10) * 100.0`. -/
def iou_class {W B C : ℕ} (data : Fin W → Fin B → BatchCounts C) (c : Fin C) : ℚ :=
  (interMeterSum data c : ℚ) / ((unionMeterSum data c : ℚ) + 1 / 10 ^ 10) * 100

/-- `overall_acc = correct_pixel.sum / total_pixel.sum * 100.0` as returned by
`evaluate` on worker `me`. -/
def overall_acc {W B C : ℕ} (data : Fin W → Fin B → BatchCounts C) (me : Fin W) : ℚ :=
  (correctMeterSum data me : ℚ) / (totalMeterSum data me : ℚ) * 100

/-! Spec-side reduction order (for the refinement claim): accumulate locally
across the whole pass, then one all-reduce per accumulated count array. -/

/-- A worker's locally accumulated intersection over its whole shard. -/
def localInterSum {W B C : ℕ} (data : Fin W → Fin B → BatchCounts C) (w : Fin W) (c : Fin C) : ℕ :=
  ∑ b, (data w b).inter c

/-- A worker's locally accumulated union over its whole shard. -/
def localUnionSum {W B C : ℕ} (data : Fin W → Fin B → BatchCounts C) (w : Fin W) (c : Fin C) : ℕ :=
  ∑ b, (data w b).union c

/-- Spec order: one all-reduce of the locally accumulated intersections at the
end of the pass. -/
def specInterSum {W B C : ℕ} (data : Fin W → Fin B → BatchCounts C) (c : Fin C) : ℕ :=
  allReduceSum (fun w => localInterSum data w) c

/-- Spec order: one all-reduce of the locally accumulated unions at the end of
the pass. -/
def specUnionSum {W B C : ℕ} (data : Fin W → Fin B → BatchCounts C) (c : Fin C) : ℕ :=
  allReduceSum (fun w => localUnionSum data w) c

/-- Per-class IoU computed from the spec-order counts. -/
def spec_iou_class {W B C : ℕ} (data : Fin W → Fin B → BatchCounts C) (c : Fin C) : ℚ :=
  (specInterSum data c : ℚ) / ((specUnionSum data c : ℚ) + 1 / 10 ^ 10) * 100

/-- Globally aggregated overall accuracy as the spec demands it (sum of
correct pixels over all workers divided by sum of total pixels over all
workers); `evaluate` does NOT compute this. -/
def aggregated_acc {W B C : ℕ} (data : Fin W → Fin B → BatchCounts C) : ℚ :=
  ((∑ w, correctMeterSum data w : ℕ) : ℚ) / ((∑ w, totalMeterSum data w : ℕ) : ℚ) * 100

/-- Two-worker, one-batch, one-class scenario refuting cross-worker
aggregation of the accuracy: worker 0 gets 1 of 2 pixels right, worker 1 gets
2 of 2 right. -/
def accScenario : Fin 2 → Fin 1 → BatchCounts 1 :=
  fun w _ =>
    { inter := fun _ => 0, union := fun _ => 0, tgt := fun _ => 0
      correct := if w = 0 then 1 else 2, total := 2 }

/-- C1 (counterexample): with two workers, one batch, where worker 0 has 1 of
2 pixels correct and worker 1 has 2 of 2 correct, `evaluate` on worker 0
returns overall accuracy 50, but the cross-worker aggregated value the claim
demands is 75 — so the returned accuracy is NOT the all-reduced ratio. -/
theorem evaluate_acc_not_aggregated :
    overall_acc accScenario 0 = 50 ∧ aggregated_acc accScenario = 75 ∧ (50 : ℚ) ≠ 75 := by
  refine ⟨?_, ?_, by norm_num⟩ <;>
    simp [overall_acc, aggregated_acc, correctMeterSum, totalMeterSum, accScenario,
      Fin.sum_univ_two, Fin.sum_univ_one] <;> norm_num

/-- C1 (amended): the overall accuracy returned by `evaluate` is the calling
worker's local `sum(correct_pixels) / sum(total_pixels) * 100`, computed from
that worker's shard only: it depends only on the calling worker's batches and
involves no all-reduce. -/
theorem evaluate_acc_local_only {W B C : ℕ} (data data' : Fin W → Fin B → BatchCounts C)
    (me : Fin W) (h : ∀ b, data me b = data' me b) :
    overall_acc data me = overall_acc data' me ∧
    overall_acc data me = (correctMeterSum data me : ℚ) / (totalMeterSum data me : ℚ) * 100 := by
  refine ⟨?_, rfl⟩
  simp only [overall_acc, correctMeterSum, totalMeterSum, h]

/-- Witness for C1 (amended) at the concrete two-worker scenario. -/
theorem evaluate_acc_local_only_witness :
    overall_acc accScenario 0 = overall_acc accScenario 0 ∧
    overall_acc accScenario 0 =
      (correctMeterSum accScenario 0 : ℚ) / (totalMeterSum accScenario 0 : ℚ) * 100 :=
  evaluate_acc_local_only accScenario accScenario 0 (fun _ => rfl)

/-- C8: the implemented reduction order (all-reduce each batch's count arrays,
then accumulate locally) yields the same final intersection/union counts as
accumulating locally over the whole pass and all-reducing once per count array
at the end, and hence the same per-class IoU
`intersection / (union + 1e-10) * 100`. -/
theorem evaluate_reduction_order_equiv {W B C : ℕ} (data : Fin W → Fin B → BatchCounts C) :
    (∀ c, interMeterSum data c = specInterSum data c) ∧
    (∀ c, unionMeterSum data c = specUnionSum data c) ∧
    (∀ c, iou_class data c = spec_iou_class data c) := by
  have hi : ∀ c, interMeterSum data c = specInterSum data c := by
    intro c
    simp only [interMeterSum, specInterSum, allReduceSum, localInterSum]
    exact Finset.sum_comm
  have hu : ∀ c, unionMeterSum data c = specUnionSum data c := by
    intro c
    simp only [unionMeterSum, specUnionSum, allReduceSum, localUnionSum]
    exact Finset.sum_comm
  exact ⟨hi, hu, fun c => by simp only [iou_class, spec_iou_class, hi c, hu c]⟩

/-! ## Resize-to-multiple model (`evaluate`, `multiplier` branch)

The source computes `new_h = int(ori_h / multiplier + 0.5) * multiplier` (and
likewise for the width), resizes both input images to `(new_h, new_w)` with
bilinear interpolation and `align_corners=True`, and after inference resizes
the prediction back to `(ori_h, ori_w)` with the same mode and flag.  For
natural `h` and positive `m`, `int(h / m + 0.5)` equals `(2*h + m) / (2*m)`
in natural division exactly. -/

/-- `int(ori_h / multiplier + 0.5) * multiplier` from `evaluate`. -/
def newDim (h m : ℕ) : ℕ := (2 * h + m) / (2 * m) * m

/-- The resize operations `evaluate` performs for one example: input resized
to `(preH, preW)` before inference, prediction resized to `(postH, postW)`
afterward, both with the recorded interpolation mode and corner alignment. -/
structure ResizePlan where
  preH : ℕ
  preW : ℕ
  postH : ℕ
  postW : ℕ
  mode : String
  alignCorners : Bool

/-- The resize plan `evaluate` uses for an `h × w` example with multiplier
`m`. -/
def evalResizePlan (h w m : ℕ) : ResizePlan :=
  { preH := newDim h m, preW := newDim w m, postH := h, postW := w
    mode := "bilinear", alignCorners := true }

/-- C2 (counterexample): for original dimension 15 and multiplier 14 the code
resizes to 14, which is smaller than 15 — so the resized dimension is NOT the
smallest multiple of the multiplier greater than or equal to the original
dimension (that would be 28). -/
theorem evaluate_resize_not_round_up :
    newDim 15 14 = 14 ∧ ¬ (15 ≤ newDim 15 14) ∧ newDim 15 14 ≠ 28 := by decide

/-- C2 (amended): `evaluate` rounds each spatial dimension to the NEAREST
multiple of the multiplier (ties rounded up, via
`int(dim/multiple + 0.5) * multiple`), which may fall below the original
dimension; the result is a multiple of `m` within `m/2` of the original
(`2*newDim ≤ 2*h + m` and `2*h < 2*newDim + m`).  Inference inputs are resized
to the rounded dimensions and predictions are resized back to the original
dimensions, both with bilinear interpolation and aligned corners. -/
theorem evaluate_resize_nearest_multiple (h w m : ℕ) (hm : 0 < m) :
    m ∣ newDim h m ∧
    2 * newDim h m ≤ 2 * h + m ∧
    2 * h < 2 * newDim h m + m ∧
    (evalResizePlan h w m).preH = newDim h m ∧
    (evalResizePlan h w m).preW = newDim w m ∧
    (evalResizePlan h w m).postH = h ∧
    (evalResizePlan h w m).postW = w ∧
    (evalResizePlan h w m).mode = "bilinear" ∧
    (evalResizePlan h w m).alignCorners = true := by
  have hm2 : 0 < 2 * m := by omega
  have hle : (2 * h + m) / (2 * m) * (2 * m) ≤ 2 * h + m := Nat.div_mul_le_self _ _
  have hmod : (2 * h + m) % (2 * m) < 2 * m := Nat.mod_lt _ hm2
  have hdm : 2 * m * ((2 * h + m) / (2 * m)) + (2 * h + m) % (2 * m) = 2 * h + m :=
    Nat.div_add_mod _ _
  refine ⟨dvd_mul_left m _, ?_, ?_, rfl, rfl, rfl, rfl, rfl, rfl⟩
  · calc 2 * newDim h m = (2 * h + m) / (2 * m) * (2 * m) := by unfold newDim; ring
      _ ≤ 2 * h + m := hle
  · have e : 2 * newDim h m = 2 * m * ((2 * h + m) / (2 * m)) := by unfold newDim; ring
    rw [e]
    linarith [hdm, hmod]

/-- Witness for C2 (amended) at `h = 15`, `w = 20`, `m = 14`. -/
theorem evaluate_resize_nearest_multiple_witness :
    14 ∣ newDim 15 14 ∧
    2 * newDim 15 14 ≤ 2 * 15 + 14 ∧
    2 * 15 < 2 * newDim 15 14 + 14 ∧
    (evalResizePlan 15 20 14).preH = newDim 15 14 ∧
    (evalResizePlan 15 20 14).preW = newDim 20 14 ∧
    (evalResizePlan 15 20 14).postH = 15 ∧
    (evalResizePlan 15 20 14).postW = 20 ∧
    (evalResizePlan 15 20 14).mode = "bilinear" ∧
    (evalResizePlan 15 20 14).alignCorners = true :=
  evaluate_resize_nearest_multiple 15 20 14 (by norm_num)

/-! ## Best-checkpoint tracking at epoch boundaries (`main`)

After evaluation the source computes `is_best = iou_class[1] >= previous_best_iou`,
updates `previous_best_iou = max(iou_class[1], previous_best_iou)`, sets
`previous_best_acc = overall_acc` when `is_best`, and then — only on rank 0 —
always saves `latest.pth` and additionally saves `best.pth` when `is_best`. -/

/-- The two best-metric trackers carried across epochs. -/
structure BestTrack where
  best_iou : ℚ
  best_acc : ℚ

/-- The update of the best trackers at one epoch boundary, given the epoch's
change-class IoU `iou1 = iou_class[1]` and its overall accuracy `acc`. -/
def epochBoundary (s : BestTrack) (iou1 acc : ℚ) : BestTrack :=
  { best_iou := max iou1 s.best_iou
    best_acc := if s.best_iou ≤ iou1 then acc else s.best_acc }

/-- The two checkpoint files. -/
inductive CkptFile where
  | latest
  | best
deriving DecidableEq

/-- The list of checkpoint files written by a worker of the given rank at one
epoch boundary. -/
def checkpointWrites (rank : ℕ) (s : BestTrack) (iou1 : ℚ) : List CkptFile :=
  if rank = 0 then
    CkptFile.latest :: (if s.best_iou ≤ iou1 then [CkptFile.best] else [])
  else []

/-- C3: at every epoch boundary rank 0 writes the latest record; it writes the
best record iff the epoch's change-class IoU is ≥ the previous best (ties
included), in which case the stored best accuracy becomes this epoch's
accuracy; any worker of nonzero rank writes nothing. -/
theorem checkpoint_write_policy (s : BestTrack) (iou1 acc : ℚ) (rank : ℕ) :
    CkptFile.latest ∈ checkpointWrites 0 s iou1 ∧
    (CkptFile.best ∈ checkpointWrites 0 s iou1 ↔ s.best_iou ≤ iou1) ∧
    (s.best_iou ≤ iou1 → (epochBoundary s iou1 acc).best_acc = acc) ∧
    (¬ s.best_iou ≤ iou1 → (epochBoundary s iou1 acc).best_acc = s.best_acc) ∧
    (rank ≠ 0 → checkpointWrites rank s iou1 = []) := by
  refine ⟨by simp [checkpointWrites], ?_, ?_, ?_, ?_⟩
  · by_cases h : s.best_iou ≤ iou1 <;> simp [checkpointWrites, h]
  · intro h; simp [epochBoundary, h]
  · intro h; simp [epochBoundary, h]
  · intro h; simp [checkpointWrites, h]

/-- Witness for C3 at `s = ⟨50, 80⟩`, `iou1 = 60`, `acc = 90`, rank 1. -/
theorem checkpoint_write_policy_witness :
    CkptFile.latest ∈ checkpointWrites 0 ⟨50, 80⟩ 60 ∧
    (CkptFile.best ∈ checkpointWrites 0 ⟨50, 80⟩ 60 ↔ (BestTrack.mk 50 80).best_iou ≤ 60) ∧
    ((BestTrack.mk 50 80).best_iou ≤ 60 → (epochBoundary ⟨50, 80⟩ 60 90).best_acc = 90) ∧
    (¬ (BestTrack.mk 50 80).best_iou ≤ 60 →
      (epochBoundary ⟨50, 80⟩ 60 90).best_acc = (BestTrack.mk 50 80).best_acc) ∧
    ((1 : ℕ) ≠ 0 → checkpointWrites 1 ⟨50, 80⟩ 60 = []) :=
  checkpoint_write_policy ⟨50, 80⟩ 60 90 1

/-- The successive tracker states over a sequence of epochs, each epoch given
as its `(iou_class[1], overall_acc)` pair. -/
def epochSeq (s : BestTrack) : List (ℚ × ℚ) → List BestTrack
  | [] => []
  | p :: rest =>
    let s2 := epochBoundary s p.1 p.2
    s2 :: epochSeq s2 rest

/-- C4: after each epoch the recorded `best_iou` equals the maximum of its
prior value and the epoch's change-class IoU, and across any sequence of
epochs the successive `best_iou` values are monotonically non-decreasing. -/
theorem best_iou_monotone (s : BestTrack) (iou1 acc : ℚ) (l : List (ℚ × ℚ)) :
    (epochBoundary s iou1 acc).best_iou = max s.best_iou iou1 ∧
    List.Chain (fun a b => a.best_iou ≤ b.best_iou) s (epochSeq s l) := by
  constructor
  · simp [epochBoundary, max_comm]
  · induction l generalizing s with
    | nil => exact List.Chain.nil
    | cons p rest ih =>
      exact List.Chain.cons (le_max_right p.1 s.best_iou) (ih _)

/-! ## Learning-rate schedule (`main`, training loop)

Each training step sets `iters = epoch * len(trainloader) + i` and
`lr = cfg['lr'] * (1 - iters / total_iters) ** 0.9`, then assigns
`param_groups[0]['lr'] = lr` (backbone) and
`param_groups[1]['lr'] = lr * cfg['lr_multi']` (head). -/

/-- The global iteration counter `iters = epoch * len(trainloader) + i`. -/
def current_iter (epoch steps_per_epoch step : ℕ) : ℕ :=
  epoch * steps_per_epoch + step

/-- `lr = base_lr * (1 - i / T) ** 0.9` (real power). -/
noncomputable def lr_sched (base_lr i T : ℝ) : ℝ :=
  base_lr * (1 - i / T) ^ (0.9 : ℝ)

/-- The head parameter group's rate `lr * cfg['lr_multi']`. -/
noncomputable def head_lr (base_lr lr_multi i T : ℝ) : ℝ :=
  lr_sched base_lr i T * lr_multi

/-- C5: for `0 ≤ i ≤ T` the schedule is non-negative and strictly decreasing
in `i`, vanishes at `i = T`, the head group's rate is the schedule times the
multiplier, and the schedule is evaluated at the global counter
`epoch * steps_per_epoch + step`. -/
theorem lr_sched_decreasing (b T : ℝ) (hb : 0 < b) (hT : 0 < T) :
    (∀ i : ℝ, 0 ≤ i → i ≤ T → 0 ≤ lr_sched b i T) ∧
    (∀ i j : ℝ, 0 ≤ i → i < j → j ≤ T → lr_sched b j T < lr_sched b i T) ∧
    lr_sched b T T = 0 ∧
    (∀ m i : ℝ, head_lr b m i T = lr_sched b i T * m) ∧
    (∀ e s st : ℕ, current_iter e s st = e * s + st) := by
  have base_nonneg : ∀ i : ℝ, i ≤ T → 0 ≤ 1 - i / T := by
    intro i hi
    have : i / T ≤ 1 := (div_le_one hT).mpr hi
    linarith
  refine ⟨?_, ?_, ?_, fun m i => rfl, fun e s st => rfl⟩
  · intro i _ hi
    exact mul_nonneg hb.le (Real.rpow_nonneg (base_nonneg i hi) _)
  · intro i j _ hij hj
    have hxy : 1 - j / T < 1 - i / T := by
      have : i / T < j / T := div_lt_div_of_pos_right hij hT
      linarith
    have hpow : (1 - j / T) ^ (0.9 : ℝ) < (1 - i / T) ^ (0.9 : ℝ) :=
      Real.rpow_lt_rpow (base_nonneg j hj) hxy (by norm_num)
    exact mul_lt_mul_of_pos_left hpow hb
  · have : (1 : ℝ) - T / T = 0 := by
      rw [div_self hT.ne']
      ring
    rw [lr_sched, this, Real.zero_rpow (by norm_num), mul_zero]

/-- Witness for C5 at `b = 1`, `T = 1`, evaluated at `i = 0` and `i = 1`. -/
theorem lr_sched_decreasing_witness :
    0 ≤ lr_sched 1 0 1 ∧ lr_sched 1 1 1 < lr_sched 1 0 1 ∧ lr_sched 1 1 1 = 0 ∧
    head_lr 1 2 0 1 = lr_sched 1 0 1 * 2 ∧ current_iter 3 5 2 = 3 * 5 + 2 := by
  have h := lr_sched_decreasing 1 1 one_pos one_pos
  exact ⟨h.1 0 le_rfl zero_le_one, h.2.1 0 1 le_rfl one_pos le_rfl, h.2.2.1,
    h.2.2.2.1 2 0, h.2.2.2.2 3 5 2⟩

/-! ## Training state, resume logic and checkpoint serialization (`main`)

`main` initializes `previous_best_iou, previous_best_acc = 0.0, 0.0` and
`epoch = -1`; if `latest.pth` exists it loads the checkpoint dict and restores
`model`, `optimizer`, `epoch`, `previous_best_iou`, `previous_best_acc`; the
epoch loop is `for epoch in range(epoch + 1, cfg['epochs'])`.  The model
weights and optimizer state are opaque blobs, abstracted by type parameters
`M` and `O`. -/

/-- The full training state persisted in a checkpoint. -/
structure TrainingState (M O : Type) where
  model : M
  optimizer : O
  epoch : ℤ
  previous_best_iou : ℚ
  previous_best_acc : ℚ
deriving DecidableEq

/-- The state before the resume check: fresh model and optimizer, `epoch = -1`,
both best trackers 0. -/
def initState {M O : Type} (m : M) (o : O) : TrainingState M O :=
  { model := m, optimizer := o, epoch := -1
    previous_best_iou := 0, previous_best_acc := 0 }

/-- The state after the resume check: unchanged when no checkpoint exists,
otherwise every field restored from the checkpoint. -/
def loadOrInit {M O : Type} (m : M) (o : O) (ckpt : Option (TrainingState M O)) :
    TrainingState M O :=
  match ckpt with
  | none => initState m o
  | some c =>
    { model := c.model, optimizer := c.optimizer, epoch := c.epoch
      previous_best_iou := c.previous_best_iou, previous_best_acc := c.previous_best_acc }

/-- The epoch indices the loop `for epoch in range(start.epoch + 1, epochs)`
runs through. -/
def epochIndices {M O : Type} (s : TrainingState M O) (epochs : ℕ) : List ℤ :=
  (List.range ((epochs : ℤ) - (s.epoch + 1)).toNat).map (fun (j : ℕ) => s.epoch + 1 + (j : ℤ))

/-- C6: with no checkpoint the state is fresh and the loop runs over exactly
the epochs `0, …, epochs - 1`; with a checkpoint all five fields are restored
verbatim and the loop runs over exactly `checkpoint.epoch + 1, …, epochs - 1`. -/
theorem resume_epoch_range {M O : Type} (m : M) (o : O)
    (ckpt : Option (TrainingState M O)) (epochs : ℕ) :
    (∀ i : ℤ, i ∈ epochIndices (loadOrInit m o ckpt) epochs ↔
      (loadOrInit m o ckpt).epoch + 1 ≤ i ∧ i < epochs) ∧
    (ckpt = none → loadOrInit m o ckpt = initState m o ∧ (initState m o).epoch + 1 = 0) ∧
    (∀ c, ckpt = some c → loadOrInit m o ckpt = c) := by
  refine ⟨?_, ?_, ?_⟩
  · intro i
    unfold epochIndices
    rw [List.mem_map]
    constructor
    · rintro ⟨j, hj, rfl⟩
      rw [List.mem_range] at hj
      omega
    · rintro ⟨h1, h2⟩
      refine ⟨(i - ((loadOrInit m o ckpt).epoch + 1)).toNat, ?_, ?_⟩
      · rw [List.mem_range]
        omega
      · omega
  · rintro rfl
    exact ⟨rfl, rfl⟩
  · rintro c rfl
    rfl

/-- Witness for C6 with a concrete checkpoint at epoch 3 and `epochs = 6`. -/
theorem resume_epoch_range_witness :
    ((4 : ℤ) ∈ epochIndices (loadOrInit 0 0 (some (⟨1, 2, 3, 40, 50⟩ : TrainingState ℕ ℕ))) 6
      ↔ (loadOrInit 0 0 (some (⟨1, 2, 3, 40, 50⟩ : TrainingState ℕ ℕ))).epoch + 1 ≤ 4 ∧
        (4 : ℤ) < 6) ∧
    loadOrInit 0 0 (some (⟨1, 2, 3, 40, 50⟩ : TrainingState ℕ ℕ)) = ⟨1, 2, 3, 40, 50⟩ :=
  ⟨(resume_epoch_range 0 0 (some ⟨1, 2, 3, 40, 50⟩) 6).1 4,
    (resume_epoch_range 0 0 (some ⟨1, 2, 3, 40, 50⟩) 6).2.2 ⟨1, 2, 3, 40, 50⟩ rfl⟩

/-! ## Checkpoint serialization round trip

`main` saves `{'model': …, 'optimizer': …, 'epoch': …, 'previous_best_iou': …,
'previous_best_acc': …}` and on resume reads the same five keys back. -/

/-- The five keys of the checkpoint dict. -/
inductive CkptKey where
  | model
  | optimizer
  | epoch
  | previous_best_iou
  | previous_best_acc
deriving DecidableEq

/-- The values stored in the checkpoint dict. -/
inductive CkptVal (M O : Type) where
  | vm (m : M)
  | vo (o : O)
  | vint (z : ℤ)
  | vq (q : ℚ)

/-- Key lookup in a serialized checkpoint. -/
def getVal {M O : Type} (k : CkptKey) :
    List (CkptKey × CkptVal M O) → Option (CkptVal M O)
  | [] => none
  | (k2, v) :: rest => if k = k2 then some v else getVal k rest

/-- `torch.save(checkpoint, …)`: the serialized checkpoint dict built in
`main` from the training state. -/
def save {M O : Type} (s : TrainingState M O) : List (CkptKey × CkptVal M O) :=
  [(CkptKey.model, CkptVal.vm s.model),
   (CkptKey.optimizer, CkptVal.vo s.optimizer),
   (CkptKey.epoch, CkptVal.vint s.epoch),
   (CkptKey.previous_best_iou, CkptVal.vq s.previous_best_iou),
   (CkptKey.previous_best_acc, CkptVal.vq s.previous_best_acc)]

/-- `torch.load` plus the five restoring assignments in `main`: reads the
five keys back into a training state, failing on a dict that does not carry
them with the expected value shapes. -/
def load {M O : Type} (ckpt : List (CkptKey × CkptVal M O)) :
    Option (TrainingState M O) :=
  match getVal CkptKey.model ckpt, getVal CkptKey.optimizer ckpt,
      getVal CkptKey.epoch ckpt, getVal CkptKey.previous_best_iou ckpt,
      getVal CkptKey.previous_best_acc ckpt with
  | some (CkptVal.vm m), some (CkptVal.vo o), some (CkptVal.vint e),
      some (CkptVal.vq bi), some (CkptVal.vq ba) =>
    some { model := m, optimizer := o, epoch := e
           previous_best_iou := bi, previous_best_acc := ba }
  | _, _, _, _, _ => none

/-- C7: loading a saved checkpoint restores the training state
field-for-field: `load (save s) = some s` for every state. -/
theorem checkpoint_round_trip {M O : Type} (s : TrainingState M O) :
    load (save s) = some s := rfl

/-! ## Startup checkpoint handling (`main`)

`main` takes the resume path exactly when `os.path.exists(save_path/latest.pth)`;
when the file exists, `torch.load` either yields the checkpoint dict or raises
(a present-but-malformed file), and no handler catches the exception, so it
terminates the run.  `none` models an absent file, `some none` a present but
malformed file, `some (some c)` a present well-formed checkpoint. -/

/-- The startup checkpoint branch: fresh start only on an absent file, fatal
error on a malformed file, restored checkpoint otherwise. -/
def startupLoad {M O : Type} (file : Option (Option (TrainingState M O))) :
    Except String (Option (TrainingState M O)) :=
  match file with
  | none => Except.ok none
  | some none => Except.error "unreadable checkpoint"
  | some (some c) => Except.ok (some c)

/-- C9: an absent checkpoint file yields the fresh-start path; a present but
malformed file is a fatal load error, never a silent fresh start; a present
well-formed file yields the resume path. -/
theorem checkpoint_missing_vs_malformed (M O : Type) (c : TrainingState M O) :
    startupLoad (none : Option (Option (TrainingState M O))) = Except.ok none ∧
    startupLoad (some (none : Option (TrainingState M O))) =
      Except.error "unreadable checkpoint" ∧
    startupLoad (some (some c)) = Except.ok (some c) :=
  ⟨rfl, rfl, rfl⟩

/-! ## Batch-size doubling (`main`)

Right after `setup_distributed`, `main` executes `cfg['batch_size'] *= 2`
once, unconditionally; the training `DataLoader` is later built with
`batch_size=cfg['batch_size']`. -/

/-- The configuration fields relevant here. -/
structure Config where
  batch_size : ℕ
  epochs : ℕ
  nclass : ℕ

/-- `cfg['batch_size'] *= 2`. -/
def doubleBatch (cfg : Config) : Config :=
  { cfg with batch_size := cfg.batch_size * 2 }

/-- The `batch_size` argument the training `DataLoader` receives. -/
def trainLoaderBatchSize (cfg : Config) : ℕ :=
  (doubleBatch cfg).batch_size

/-- C10: the per-worker training batch size actually used by the training
loader is exactly twice the configured `batch_size`. -/
theorem train_batch_size_doubled (cfg : Config) :
    trainLoaderBatchSize cfg = 2 * cfg.batch_size :=
  Nat.mul_comm cfg.batch_size 2

end Supervised
